import Mathlib

/-!
Shallow embedding of the calendar chat bot (src/main.py): tag extraction,
event parsing, delete-command parsing and resolution, dispatching, and the
digest formatter.  Python strings are modelled as `List Char`; the regex
patterns of the source are embedded as recursive scanning functions with
the leftmost-match / greedy-with-backtracking semantics of `re.search` for
the concrete patterns used.  Digits are modelled as ASCII digits.  Machine
clock input is reduced to the civil datetime `now` (the source reads only
`datetime.now(JST).year`).  The Calendar Gateway is modelled as the list of
entries the single `events().list` call would return, plus a trace of the
gateway calls made; remote calls themselves are assumed to succeed.
-/

namespace EventBot

/-- Whitespace for Python `str.strip()` / `int()` (the subset relevant here,
including the ideographic space). -/
def isPyWs (c : Char) : Bool :=
  c == ' ' || c == '\t' || c == '\n' || c == '\x0d' || c == '\x0b' || c == '\x0c' ||
  c == '　'

/-- Left strip, Python `str.lstrip()`. -/
def pyStripL (l : List Char) : List Char := l.dropWhile isPyWs

/-- Right strip, Python `str.rstrip()`. -/
def pyStripR (l : List Char) : List Char := (l.reverse.dropWhile isPyWs).reverse

/-- Python `str.strip()`. -/
def pyStrip (l : List Char) : List Char := pyStripR (pyStripL l)

/-- Python `old in s` substring test. -/
def containsSub (needle : List Char) : List Char → Bool
  | [] => needle.isEmpty
  | c :: rest => needle.isPrefixOf (c :: rest) || containsSub needle rest

/-- Recursion core of `replaceAll`: every step consumes at least one
character, so fuel equal to the length of the list never runs out (the
`0, l` arm is unreachable from `replaceAll`). -/
def replaceAllGo (p : Char) (ps : List Char) : Nat → List Char → List Char
  | _, [] => []
  | 0, l => l
  | fuel + 1, c :: rest =>
    if (p :: ps).isPrefixOf (c :: rest) then replaceAllGo p ps fuel (rest.drop ps.length)
    else c :: replaceAllGo p ps fuel rest

/-- Python `s.replace(p :: ps, "")`: delete the non-overlapping occurrences of
the (non-empty) pattern, scanning left to right without rescanning. -/
def replaceAll (p : Char) (ps : List Char) (l : List Char) : List Char :=
  replaceAllGo p ps l.length l

/-- Python `s.split(sep)` for a one-character separator (keeps empty pieces). -/
def pySplit (sep : Char) : List Char → List (List Char)
  | [] => [[]]
  | c :: rest =>
    if c = sep then [] :: pySplit sep rest
    else
      match pySplit sep rest with
      | [] => [[c]]
      | h :: t => (c :: h) :: t

/-- Python `s.splitlines()` restricted to the newline separator: a trailing
newline produces no final empty line, and an empty string has no lines. -/
def pySplitlines (l : List Char) : List (List Char) :=
  match l with
  | [] => []
  | _ =>
    let ps := pySplit '\n' l
    if l.getLast? = some '\n' then ps.dropLast else ps

/-- Decimal value of a run of ASCII digits. -/
def natVal (l : List Char) : Nat := l.foldl (fun a c => 10 * a + (c.toNat - 48)) 0

/-- Python `int(s)`: strips surrounding whitespace, accepts an optional sign
followed by one or more (ASCII) digits; otherwise raises `ValueError` whose
text quotes the original string. -/
def pyInt (s : List Char) : Except String Int :=
  let t := pyStrip s
  let signAndDigits : Int × List Char :=
    match t with
    | '+' :: r => (1, r)
    | '-' :: r => (-1, r)
    | r => (1, r)
  if signAndDigits.2 ≠ [] ∧ signAndDigits.2.all Char.isDigit then
    .ok (signAndDigits.1 * (natVal signAndDigits.2 : Int))
  else
    .error ("invalid literal for int() with base 10: '" ++ String.mk s ++ "'")

/-- Civil datetime in the fixed Asia/Tokyo zone (second and microsecond are
always zero in this program). -/
structure DateTime where
  year : Nat
  month : Nat
  day : Nat
  hour : Nat
  minute : Nat
deriving DecidableEq, Repr

/-- Gregorian leap year, as in CPython `datetime`. -/
def isLeap (y : Nat) : Bool := y % 4 == 0 && (y % 100 != 0 || y % 400 == 0)

/-- Days in a month (0 outside 1..12), as in CPython `_days_in_month`. -/
def daysInMonth (y : Nat) (m : Nat) : Nat :=
  match m with
  | 1 => 31 | 3 => 31 | 5 => 31 | 7 => 31 | 8 => 31 | 10 => 31 | 12 => 31
  | 4 => 30 | 6 => 30 | 9 => 30 | 11 => 30
  | 2 => if isLeap y then 29 else 28
  | _ => 0

/-- Days in a year. -/
def daysInYear (y : Nat) : Nat := if isLeap y then 366 else 365

/-- Days in the months strictly before month `m` of year `y`. -/
def daysBeforeMonth (y : Nat) : Nat → Nat
  | 0 => 0
  | m + 1 => daysBeforeMonth y m + daysInMonth y m

/-- Days in the years strictly before year `y`. -/
def daysBeforeYear : Nat → Nat
  | 0 => 0
  | y + 1 => daysBeforeYear y + daysInYear y

/-- Absolute minute count of a civil datetime; the measure in which
"one hour later" is expressed. -/
def DateTime.toMin (dt : DateTime) : Nat :=
  (daysBeforeYear dt.year + daysBeforeMonth dt.year dt.month + (dt.day - 1)) * 1440 +
    dt.hour * 60 + dt.minute

/-- `dt + timedelta(hours=1)` on a valid civil datetime (pytz keeps the fixed
offset, so the arithmetic is purely civil). -/
def DateTime.addHour (dt : DateTime) : DateTime :=
  if dt.hour + 1 ≤ 23 then { dt with hour := dt.hour + 1 }
  else if dt.day + 1 ≤ daysInMonth dt.year dt.month then
    { dt with hour := 0, day := dt.day + 1 }
  else if dt.month + 1 ≤ 12 then
    { dt with hour := 0, day := 1, month := dt.month + 1 }
  else
    { year := dt.year + 1, month := 1, day := 1, hour := 0, minute := dt.minute }

/-- Zero-padded two-digit decimal rendering. -/
def pad2 (n : Nat) : String := if n < 10 then "0" ++ toString n else toString n

/-- Zero-padded four-digit decimal rendering. -/
def pad4 (n : Nat) : String :=
  if n < 10 then "000" ++ toString n
  else if n < 100 then "00" ++ toString n
  else if n < 1000 then "0" ++ toString n
  else toString n

/-- `JST.localize(dt).isoformat()`: Asia/Tokyo has the constant +09:00 offset
for every modern date, and second/microsecond are zero. -/
def DateTime.isoformat (dt : DateTime) : String :=
  pad4 dt.year ++ "-" ++ pad2 dt.month ++ "-" ++ pad2 dt.day ++ "T" ++
    pad2 dt.hour ++ ":" ++ pad2 dt.minute ++ ":00+09:00"

/-- CPython `datetime(year, month, day, hour, minute)`: range validation with
the C implementation's `ValueError` messages, in its checking order. -/
def mkDatetime (y : Nat) (mo d h mi : Int) : Except String DateTime :=
  if (y : Int) < 1 ∨ 9999 < (y : Int) then
    .error ("year " ++ toString y ++ " is out of range")
  else if mo < 1 ∨ 12 < mo then .error "month must be in 1..12"
  else if d < 1 ∨ (daysInMonth y mo.toNat : Int) < d then
    .error "day is out of range for month"
  else if h < 0 ∨ 23 < h then .error "hour must be in 0..23"
  else if mi < 0 ∨ 59 < mi then .error "minute must be in 0..59"
  else .ok ⟨y, mo.toNat, d.toNat, h.toNat, mi.toNat⟩

/-! ### The fixed markers of the message format -/

def titleMarker : List Char := ['【', 'タ', 'イ', 'ト', 'ル', '】']
def dateMarker : List Char := ['【', '日', '付', '】']
def startTimeMarker : List Char := ['【', '開', '始', '時', '間', '】']
def contentMarker : List Char := ['【', '内', '容', '】']
def urlMarker : List Char := ['【', 'U', 'R', 'L', '】']
def deleteMarker : List Char := ['【', '削', '除', '】']

/-! ### The regex searches of `extract_event_info`

`re.search` tries every start position from the left; at a given position the
pattern begins with the literal marker, and the groups behave as below. -/

/-- Search for `marker(.+)`: at the first position where the marker is a
prefix and at least one non-newline character follows, the group is the run
of characters up to the next newline (greedy `.`, which excludes `'\n'`). -/
def findTagLine (tag : List Char) : List Char → Option (List Char)
  | [] => none
  | c :: rest =>
    if tag.isPrefixOf (c :: rest) then
      let grp := ((c :: rest).drop tag.length).takeWhile (fun x => x ≠ '\n')
      if grp.isEmpty then findTagLine tag rest else some grp
    else findTagLine tag rest

/-- Value of a one- or two-digit group. -/
def digitVal2 (c1 c2 : Char) : Nat := natVal [c1, c2]

/-- The tail group `(\d{1,2})` with nothing after it: greedily two digits if
available, else one. -/
def matchTrailNum : List Char → Option Nat
  | d1 :: rest =>
    if d1.isDigit then
      match rest with
      | d2 :: _ => if d2.isDigit then some (digitVal2 d1 d2) else some (natVal [d1])
      | [] => some (natVal [d1])
    else none
  | [] => none

/-- The date pattern (one or two digits, a slash-or-dash separator class,
one or two digits) right after the date marker, with the greedy
backtracking of the first group: a two-digit first group is preferred, and if
the separator or second group then fails, a digit cannot serve as the
separator, so the whole position fails. -/
def matchDateAfter : List Char → Option (Nat × Nat)
  | c1 :: rest1 =>
    if c1.isDigit then
      match rest1 with
      | c2 :: rest2 =>
        if c2.isDigit then
          match rest2 with
          | s :: rest3 =>
            if s = '/' ∨ s = '-' then
              (matchTrailNum rest3).map (fun d => (digitVal2 c1 c2, d))
            else none
          | [] => none
        else if c2 = '/' ∨ c2 = '-' then
          (matchTrailNum rest2).map (fun d => (natVal [c1], d))
        else none
      | [] => none
    else none
  | [] => none

/-- `(\d{1,2}):(\d{2})` right after the start-time marker: greedy two-digit
hour when the next two characters are digits (then a digit cannot be the
`':'`, so failure of the rest fails the position), minute exactly two
digits. -/
def matchTimeAfter : List Char → Option (Nat × Nat)
  | c1 :: rest1 =>
    if c1.isDigit then
      match rest1 with
      | c2 :: rest2 =>
        if c2.isDigit then
          match rest2 with
          | ':' :: d1 :: d2 :: _ =>
            if d1.isDigit ∧ d2.isDigit then some (digitVal2 c1 c2, digitVal2 d1 d2)
            else none
          | _ => none
        else if c2 = ':' then
          match rest2 with
          | d1 :: d2 :: _ =>
            if d1.isDigit ∧ d2.isDigit then some (natVal [c1], digitVal2 d1 d2)
            else none
          | _ => none
        else none
      | [] => none
    else none
  | [] => none

/-- `re.search` for the date pattern: leftmost position whose tail matches. -/
def findDate : List Char → Option (Nat × Nat)
  | [] => none
  | c :: rest =>
    if dateMarker.isPrefixOf (c :: rest) then
      match matchDateAfter ((c :: rest).drop dateMarker.length) with
      | some r => some r
      | none => findDate rest
    else findDate rest

/-- `re.search` for the start-time pattern: leftmost position whose tail
matches. -/
def findTime : List Char → Option (Nat × Nat)
  | [] => none
  | c :: rest =>
    if startTimeMarker.isPrefixOf (c :: rest) then
      match matchTimeAfter ((c :: rest).drop startTimeMarker.length) with
      | some r => some r
      | none => findTime rest
    else findTime rest

/-! ### Event Parser -/

/-- The description built by `extract_event_info`: the stripped content
field, with a stripped URL field (when present and non-empty) appended as a
second line prefixed "URL: ". -/
def descriptionOf (msg : List Char) : String :=
  let content := match findTagLine contentMarker msg with
    | some c => String.mk (pyStrip c)
    | none => ""
  let url := match findTagLine urlMarker msg with
    | some u => String.mk (pyStrip u)
    | none => ""
  if url = "" then content else content ++ "\nURL: " ++ url

/-- `extract_event_info(message)`.  `.ok none` is Python `None`; `.error e`
is a propagating `ValueError` from the `datetime` constructor; `.ok (some
(title, start_str, end_str, description))` is the returned tuple.  Only the
year of `now` is read (`datetime.now(JST).year`). -/
def extract_event_info (now : DateTime) (message : String) : Except String (Option (String × String × String × String)) :=
  let msg := message.toList
  match findTagLine titleMarker msg, findDate msg, findTime msg with
  | some tc, some (mo, d), some (h, mi) =>
    let title := String.mk (pyStrip tc)
    match mkDatetime now.year (mo : Int) (d : Int) (h : Int) (mi : Int) with
    | .error e => .error e
    | .ok dt =>
      let start_str := dt.isoformat
      let end_str := dt.addHour.isoformat
      .ok (some (title, start_str, end_str, descriptionOf msg))
  | _, _, _ => .ok none

/-! ### Delete Request Parser -/

/-- The loosely typed delete-field dict (`data` in `parse_delete_message`). -/
structure DeleteData where
  title : Option String := none
  date : Option String := none
  start_time : Option String := none
  content : Option String := none
  url : Option String := none
deriving DecidableEq, Repr

/-- One iteration of the line loop of `parse_delete_message` (the
`elif` chain; a later line overwrites an earlier value of the same field). -/
def deleteLineStep (data : DeleteData) (line : List Char) : DeleteData :=
  if titleMarker.isPrefixOf line then
    { data with title := some (String.mk (pyStrip (replaceAll '【' titleMarker.tail line))) }
  else if dateMarker.isPrefixOf line then
    { data with date := some (String.mk (pyStrip (replaceAll '【' dateMarker.tail line))) }
  else if startTimeMarker.isPrefixOf line then
    { data with start_time := some (String.mk (pyStrip (replaceAll '【' startTimeMarker.tail line))) }
  else if contentMarker.isPrefixOf line then
    { data with content := some (String.mk (pyStrip (replaceAll '【' contentMarker.tail line))) }
  else if urlMarker.isPrefixOf line then
    { data with url := some (String.mk (pyStrip (replaceAll '【' urlMarker.tail line))) }
  else data

/-- `parse_delete_message(message)`: delete every occurrence of the delete
marker, strip, split into non-empty stripped lines, and fold the line loop. -/
def parse_delete_message (message : String) : DeleteData :=
  let content := pyStrip (replaceAll '【' deleteMarker.tail message.toList)
  let lines := ((pySplitlines content).map pyStrip).filter (fun l => ¬ l.isEmpty)
  lines.foldl deleteLineStep {}

/-- Python `map(int, parts)` unpacked into two names: the iterator is lazy,
so values are converted in the order the unpacking pulls them, and the
arity errors are raised only after the corresponding conversions succeed. -/
def mapIntUnpack2 (parts : List (List Char)) : Except String (Int × Int) :=
  match parts with
  | [] => .error "not enough values to unpack (expected 2, got 0)"
  | [a] => do
    let _ ← pyInt a
    .error "not enough values to unpack (expected 2, got 1)"
  | [a, b] => do
    let x ← pyInt a
    let y ← pyInt b
    .ok (x, y)
  | a :: b :: c :: _ => do
    let _ ← pyInt a
    let _ ← pyInt b
    let _ ← pyInt c
    .error "too many values to unpack (expected 2)"

/-- The `try` block of `delete_event_from_data` (year inference, splitting
and integer conversion of the raw date/time strings, `datetime`
construction); any raised exception's text is the result's `.error`.
A missing dict key is Python's `KeyError`, whose text is the quoted key. -/
def deleteParseDT (y : Nat) (data : DeleteData) : Except String DateTime :=
  match data.date with
  | none => .error "'date'"
  | some ds =>
    match mapIntUnpack2 (pySplit '/' ds.toList) with
    | .error e => .error e
    | .ok (mo, d) =>
      match data.start_time with
      | none => .error "'start_time'"
      | some ts =>
        match (if containsSub [':'] ts.toList then mapIntUnpack2 (pySplit ':' ts.toList)
               else (pyInt ts.toList).map (fun h => (h, 0))) with
        | .error e => .error e
        | .ok (h, mi) => mkDatetime y mo d h mi

/-! ### Calendar Gateway model -/

/-- A remote calendar entry as this program reads it: the `id`, the optional
`summary` key, and the optional `dateTime` key of the always-present `start`
dict (absent for all-day events). -/
structure CalEntry where
  id : String
  summary : Option String
  startDateTime : Option String
deriving DecidableEq, Repr

/-- A call made to the Calendar Gateway. -/
inductive GatewayCall where
  | insert (summary startT endT : String) (description : Option String)
  | list (timeMin timeMax : String)
  | del (id : String)
deriving DecidableEq, Repr

/-- Python truthiness of an optional string (`not data.get(k)`):
falsy when the key is absent or the value is the empty string. -/
def falsyStr (o : Option String) : Bool := o.getD "" == ""

/-- `f"{o}"` for an optional string: Python prints `None` for the absent
case. -/
def optStr (o : Option String) : String := o.getD "None"

/-- `delete_event_from_data(data)`: on a parse failure, the error-embedding
reply with no gateway call; otherwise list the one-hour window and delete
the first listed entry whose `summary` equals the requested title
(`event.get('summary') == data.get('title')`), or report not-found.
`rem` is the entry list the gateway returns for the window. -/
def delete_event_from_data (y : Nat) (rem : List CalEntry) (data : DeleteData) : String × List GatewayCall :=
  match deleteParseDT y data with
  | .error e => ("日時の形式が正しくありません。エラー: " ++ e, [])
  | .ok dt =>
    let listCall := GatewayCall.list dt.isoformat dt.addHour.isoformat
    match rem.find? (fun ev => ev.summary == data.title) with
    | some ev =>
      ("予定「" ++ optStr data.title ++ "」を削除しました。", [listCall, GatewayCall.del ev.id])
    | none => ("該当する予定が見つかりませんでした。", [listCall])

/-! ### Command Dispatcher -/

/-- The fixed usage-example reply of the create path. -/
def usageReply : String :=
  "予定の形式が正しくありません。例:\n【タイトル】会議\n【日付】7/10\n【開始時間】14:00\n【内容】説明\n【URL】https://..."

/-- The fixed incomplete-delete-command reply. -/
def incompleteReply : String :=
  "削除コマンドの形式が不完全です。タイトル、日付、開始時間を必ず指定してください。"

/-- `handle_incoming_message(message_text)`.  The first component is the
reply (`.ok none` is Python `None`, i.e. no reply; `.error e` is a
propagating exception), the second the trace of gateway calls made. -/
def handle_incoming_message (now : DateTime) (rem : List CalEntry) (message : String) : Except String (Option String) × List GatewayCall :=
  if deleteMarker.isPrefixOf message.toList then
    let data := parse_delete_message message
    if falsyStr data.title || falsyStr data.date || falsyStr data.start_time then
      (.ok (some incompleteReply), [])
    else
      let (r, cs) := delete_event_from_data now.year rem data
      (.ok (some r), cs)
  else if ¬ containsSub titleMarker message.toList ∨
      ¬ containsSub dateMarker message.toList ∨
      ¬ containsSub startTimeMarker message.toList then
    (.ok none, [])
  else
    match extract_event_info now message with
    | .error e => (.error e, [])
    | .ok none => (.ok (some usageReply), [])
    | .ok (some (t, s, e, d)) =>
      (.ok (some ("予定を登録しました：" ++ t ++ "（" ++ s ++ "）")),
       [GatewayCall.insert t s e (if d = "" then none else some d)])

/-! ### Digest Formatter -/

/-- The fixed trailing RSVP reminder element appended to `lines` (its leading
newline is part of the element, so the join leaves a blank line before it). -/
def rsvpLine : String :=
  "\nご参加ご希望の方は予定表に調整さんがあればそちらから出欠のご連絡をお願いします。"

/-- The fixed no-events line. -/
def noEventsLine : String := "予定はありません。"

/-- Python `s[11:16]`. -/
def slice11to16 (s : String) : String := String.mk ((s.toList.drop 11).take 5)

/-- One iteration of the entry loop of `format_events`:
`e['start'].get('dateTime', '')[11:16]` and `e['summary']` (a `KeyError` if
the summary key is absent). -/
def entryLine (e : CalEntry) : Except String String :=
  match e.summary with
  | none => .error "'summary'"
  | some s => .ok (slice11to16 (e.startDateTime.getD "") ++ " - " ++ s)

/-- `format_events(events, header)`. -/
def format_events (events : List CalEntry) (header : String) : Except String String :=
  if events.isEmpty then .ok (header ++ "\n" ++ noEventsLine)
  else do
    let ls ← events.mapM entryLine
    .ok (String.intercalate "\n" ((header :: ls) ++ [rsvpLine]))

/-- The field ranges under which CPython's `datetime` constructor accepts a
civil datetime of this program (year from the clock, second fixed to 0). -/
def Valid (dt : DateTime) : Prop :=
  1 ≤ dt.month ∧ dt.month ≤ 12 ∧ 1 ≤ dt.day ∧ dt.day ≤ daysInMonth dt.year dt.month ∧
    dt.hour ≤ 23 ∧ dt.minute ≤ 59

/-! ## Lemmas about the civil-datetime arithmetic -/

theorem daysBeforeMonth_thirteen (y : Nat) : daysBeforeMonth y 13 = daysInYear y := by
  simp only [daysBeforeMonth, daysInMonth, daysInYear]
  cases isLeap y <;> norm_num

theorem mkDatetime_nat_ok (y m d h mi : Nat)
    (hy1 : 1 ≤ y) (hy2 : y ≤ 9999) (hm1 : 1 ≤ m) (hm2 : m ≤ 12)
    (hd1 : 1 ≤ d) (hd2 : d ≤ daysInMonth y m) (hh : h ≤ 23) (hmi : mi ≤ 59) :
    mkDatetime y (m : Int) (d : Int) (h : Int) (mi : Int) = .ok ⟨y, m, d, h, mi⟩ := by
  simp only [mkDatetime, Int.toNat_natCast]
  rw [if_neg (by omega), if_neg (by omega), if_neg (by omega), if_neg (by omega),
    if_neg (by omega)]

theorem mkDatetime_ok_valid (y : Nat) (mo d h mi : Int) (dt : DateTime)
    (hok : mkDatetime y mo d h mi = .ok dt) : Valid dt := by
  simp only [mkDatetime] at hok
  split_ifs at hok with h1 h2 h3 h4 h5
  obtain rfl := Except.ok.inj hok
  unfold Valid
  dsimp only
  refine ⟨by omega, by omega, by omega, by omega, by omega, by omega⟩

theorem addHour_toMin (dt : DateTime) (hv : Valid dt) :
    dt.addHour.toMin = dt.toMin + 60 := by
  obtain ⟨hm1, hm2, hd1, hd2, hh, hmi⟩ := hv
  unfold DateTime.addHour
  split_ifs with h1 h2 h3
  · simp only [DateTime.toMin]
    omega
  · simp only [DateTime.toMin]
    omega
  · have hstep : daysBeforeMonth dt.year (dt.month + 1) =
        daysBeforeMonth dt.year dt.month + daysInMonth dt.year dt.month := rfl
    simp only [DateTime.toMin, hstep]
    omega
  · have hmonth : dt.month = 12 := by omega
    have hday : dt.day = daysInMonth dt.year dt.month := by omega
    have hyear : daysBeforeYear (dt.year + 1) = daysBeforeYear dt.year + daysInYear dt.year := rfl
    have hsum : daysInYear dt.year = daysBeforeMonth dt.year 12 + 31 := by
      have h13 : daysBeforeMonth dt.year 13 =
          daysBeforeMonth dt.year 12 + daysInMonth dt.year 12 := rfl
      have := daysBeforeMonth_thirteen dt.year
      simp only [daysInMonth] at h13
      omega
    have hdim : daysInMonth dt.year dt.month = 31 := by rw [hmonth]; rfl
    simp only [DateTime.toMin, hyear]
    rw [hmonth] at *
    have hb1 : daysBeforeMonth (dt.year + 1) 1 = 0 := rfl
    omega

theorem isoformat_offset (dt : DateTime) :
    ∃ p, (DateTime.isoformat dt).data = p ++ ("+09:00" : String).data := by
  refine ⟨(pad4 dt.year ++ "-" ++ pad2 dt.month ++ "-" ++ pad2 dt.day ++ "T" ++
    pad2 dt.hour ++ ":" ++ pad2 dt.minute ++ ":00").data, ?_⟩
  have hsplit : (":00+09:00" : String) = ":00" ++ "+09:00" := rfl
  simp only [DateTime.isoformat, hsplit, String.data_append, List.append_assoc]

/-! ## Lemmas about `replaceAll` and the strip/split helpers -/

theorem replaceAllGo_nil (p : Char) (ps : List Char) (f : Nat) :
    replaceAllGo p ps f [] = [] := by
  cases f <;> rfl

theorem replaceAllGo_irrel (p : Char) (ps : List Char) :
    ∀ f1 f2 l, l.length ≤ f1 → l.length ≤ f2 →
      replaceAllGo p ps f1 l = replaceAllGo p ps f2 l := by
  intro f1
  induction f1 with
  | zero =>
    intro f2 l h1 _
    obtain rfl := List.eq_nil_of_length_eq_zero (Nat.le_zero.mp h1)
    rw [replaceAllGo_nil, replaceAllGo_nil]
  | succ f ih =>
    intro f2 l h1 h2
    cases l with
    | nil => rw [replaceAllGo_nil, replaceAllGo_nil]
    | cons c rest =>
      cases f2 with
      | zero => simp at h2
      | succ f2' =>
        simp only [replaceAllGo]
        split_ifs with hpre
        · refine ih f2' (rest.drop ps.length) ?_ ?_ <;>
            · have := List.length_drop ps.length rest
              simp only [List.length_cons] at h1 h2
              omega
        · refine congrArg (c :: ·) (ih f2' rest ?_ ?_) <;>
            · simp only [List.length_cons] at h1 h2
              omega

theorem replaceAll_cons_neg (p c : Char) (ps rest : List Char)
    (h : (p :: ps).isPrefixOf (c :: rest) = false) :
    replaceAll p ps (c :: rest) = c :: replaceAll p ps rest := by
  simp only [replaceAll, List.length_cons, replaceAllGo, h]
  simp

theorem replaceAll_drop_pat (p : Char) (ps r : List Char) :
    replaceAll p ps ((p :: ps) ++ r) = replaceAll p ps r := by
  have hpre : (p :: ps).isPrefixOf (p :: (ps ++ r)) = true := by
    rw [List.isPrefixOf_iff_prefix]
    exact List.prefix_append (p :: ps) r
  simp only [replaceAll, List.cons_append, List.length_cons, replaceAllGo, List.append_eq,
    hpre, if_true]
  rw [List.drop_left]
  refine replaceAllGo_irrel p ps _ _ r ?_ ?_
  · simp only [List.length_append]
    omega
  · omega

theorem replaceAll_append_skip (p : Char) (ps : List Char) :
    ∀ a r, (∀ c ∈ a, c ≠ p) → replaceAll p ps (a ++ r) = a ++ replaceAll p ps r := by
  intro a
  induction a with
  | nil => intro r _; simp
  | cons c a' ih =>
    intro r h
    have hc : (p == c) = false := by
      rw [beq_eq_false_iff_ne]
      exact Ne.symm (h c (List.mem_cons_self c a'))
    have hpre : (p :: ps).isPrefixOf (c :: (a' ++ r)) = false := by
      simp [List.isPrefixOf, hc]
    rw [List.cons_append, replaceAll_cons_neg p c ps (a' ++ r) hpre,
      ih r (fun x hx => h x (List.mem_cons_of_mem c hx)), List.cons_append]

theorem replaceAll_id (p : Char) (ps b : List Char) (h : ∀ c ∈ b, c ≠ p) :
    replaceAll p ps b = b := by
  have := replaceAll_append_skip p ps b [] h
  simpa [replaceAll, replaceAllGo_nil] using this

theorem dropWhile_head_false (pr : Char → Bool) (l : List Char)
    (h : ∀ c ∈ l, pr c = false) : l.dropWhile pr = l := by
  cases l with
  | nil => rfl
  | cons c t => simp [List.dropWhile, h c (List.mem_cons_self c t)]

theorem pyStrip_all_nonws (l : List Char) (h : ∀ c ∈ l, isPyWs c = false) :
    pyStrip l = l := by
  unfold pyStrip pyStripL pyStripR
  rw [dropWhile_head_false _ _ h]
  rw [dropWhile_head_false _ _ (fun c hc => h c (List.mem_reverse.mp hc))]
  simp

theorem pySplit_no_sep (sep : Char) :
    ∀ l, (∀ c ∈ l, c ≠ sep) → pySplit sep l = [l] := by
  intro l
  induction l with
  | nil => intro _; rfl
  | cons c t ih =>
    intro h
    have hc : c ≠ sep := h c (List.mem_cons_self c t)
    simp only [pySplit, if_neg hc, ih (fun x hx => h x (List.mem_cons_of_mem c hx))]

theorem pySplitlines_single (l : List Char) (hne : l ≠ [])
    (h : ∀ c ∈ l, c ≠ '\n') : pySplitlines l = [l] := by
  unfold pySplitlines
  match l, hne with
  | c :: rest, _ =>
    have hlast : (c :: rest).getLast? ≠ some '\n' := by
      intro hx
      obtain ⟨hne', heq⟩ := List.mem_getLast?_eq_getLast (Option.mem_def.mpr hx)
      exact h _ (heq ▸ List.getLast_mem hne') rfl
    rw [if_neg hlast, pySplit_no_sep _ _ h]

theorem deleteParseDT_ok_valid (y : Nat) (data : DeleteData) (dt : DateTime)
    (h : deleteParseDT y data = .ok dt) : Valid dt := by
  unfold deleteParseDT at h
  repeat' split at h
  all_goals
    first
      | exact Except.noConfusion h
      | exact mkDatetime_ok_valid _ _ _ _ _ _ h

/-! ## The claims -/

/-- C7: parsing is a pure function of the message text and the clock's year,
so two runs under the same year yield structurally identical results. -/
theorem C7_parse_idempotent (n1 n2 : DateTime) (msg : String) (hy : n1.year = n2.year) :
    extract_event_info n1 msg = extract_event_info n2 msg := by
  unfold extract_event_info
  rw [hy]

theorem C7_witness :
    extract_event_info ⟨2026, 1, 1, 0, 0⟩ "【タイトル】会議\n【日付】7/10\n【開始時間】14:00" =
      extract_event_info ⟨2026, 12, 31, 23, 59⟩ "【タイトル】会議\n【日付】7/10\n【開始時間】14:00" :=
  C7_parse_idempotent ⟨2026, 1, 1, 0, 0⟩ ⟨2026, 12, 31, 23, 59⟩ _ rfl

/-- C4: a delete-marker message whose parsed fields miss any of title, date
or start time gets the fixed incomplete-delete reply and no gateway call. -/
theorem C4_incomplete_delete (now : DateTime) (rem : List CalEntry) (msg : String)
    (hd : deleteMarker.isPrefixOf msg.toList = true)
    (hmiss : (parse_delete_message msg).title = none ∨
      (parse_delete_message msg).date = none ∨
      (parse_delete_message msg).start_time = none) :
    handle_incoming_message now rem msg = (.ok (some incompleteReply), []) := by
  have hfal : (falsyStr (parse_delete_message msg).title ||
      falsyStr (parse_delete_message msg).date ||
      falsyStr (parse_delete_message msg).start_time) = true := by
    rcases hmiss with h | h | h <;> simp [falsyStr, h]
  simp only [handle_incoming_message, hd, if_true, hfal]

theorem C4_witness :
    handle_incoming_message ⟨2026, 10, 12, 9, 0⟩ [] "【削除】\n【タイトル】会議\n【日付】7/10" =
      (.ok (some incompleteReply), []) :=
  C4_incomplete_delete ⟨2026, 10, 12, 9, 0⟩ [] "【削除】\n【タイトル】会議\n【日付】7/10" rfl
    (Or.inr (Or.inr rfl))

/-- C9: a parsed field value that is the empty string (marker line followed
by only whitespace) is falsy exactly like an absent field: the dispatcher
returns the fixed incomplete-delete reply and makes no gateway call. -/
theorem C9_empty_field (now : DateTime) (rem : List CalEntry) (msg : String)
    (hd : deleteMarker.isPrefixOf msg.toList = true)
    (hempty : (parse_delete_message msg).title = some "" ∨
      (parse_delete_message msg).date = some "" ∨
      (parse_delete_message msg).start_time = some "") :
    handle_incoming_message now rem msg = (.ok (some incompleteReply), []) := by
  have hfal : (falsyStr (parse_delete_message msg).title ||
      falsyStr (parse_delete_message msg).date ||
      falsyStr (parse_delete_message msg).start_time) = true := by
    rcases hempty with h | h | h <;> simp [falsyStr, h]
  simp only [handle_incoming_message, hd, if_true, hfal]

theorem C9_witness :
    handle_incoming_message ⟨2026, 10, 12, 9, 0⟩ []
        "【削除】\n【タイトル】 　\n【日付】7/10\n【開始時間】14:00" =
      (.ok (some incompleteReply), []) :=
  C9_empty_field ⟨2026, 10, 12, 9, 0⟩ []
    "【削除】\n【タイトル】 　\n【日付】7/10\n【開始時間】14:00" rfl (Or.inl rfl)

/-- C5: when the resolution's date/time parsing raises, the reply embeds the
raised error's description and no gateway call (list or delete) is made. -/
theorem C5_bad_datetime (y : Nat) (rem : List CalEntry) (data : DeleteData) (e : String)
    (he : deleteParseDT y data = .error e) :
    delete_event_from_data y rem data = ("日時の形式が正しくありません。エラー: " ++ e, []) := by
  unfold delete_event_from_data
  rw [he]

theorem C5_witness :
    delete_event_from_data 2026 [⟨"id1", some "会議", none⟩]
        ⟨some "会議", some "2/31", some "14:00", none, none⟩ =
      ("日時の形式が正しくありません。エラー: " ++ "day is out of range for month", []) :=
  C5_bad_datetime 2026 [⟨"id1", some "会議", none⟩]
    ⟨some "会議", some "2/31", some "14:00", none, none⟩ "day is out of range for month" rfl

/-- C1 (amended): with all three create markers present (and no delete
prefix), a pattern-level validation failure is recovered into the fixed
usage-example reply with no gateway call; but regex-accepted numeric values
rejected by the datetime constructor raise an error that propagates (still
with no gateway call) instead of producing the usage reply. -/
theorem C1_amended (now : DateTime) (rem : List CalEntry) (msg : String)
    (hnd : deleteMarker.isPrefixOf msg.toList = false)
    (ht : containsSub titleMarker msg.toList = true)
    (hdm : containsSub dateMarker msg.toList = true)
    (hsm : containsSub startTimeMarker msg.toList = true) :
    (extract_event_info now msg = .ok none →
      handle_incoming_message now rem msg = (.ok (some usageReply), [])) ∧
    (∀ e, extract_event_info now msg = .error e →
      handle_incoming_message now rem msg = (.error e, [])) := by
  constructor
  · intro hx
    simp only [handle_incoming_message, hnd, ht, hdm, hsm, hx]
    simp
  · intro e hx
    simp only [handle_incoming_message, hnd, ht, hdm, hsm, hx]
    simp

theorem C1_witness :
    handle_incoming_message ⟨2026, 10, 12, 9, 0⟩ []
        "【タイトル】会議\n【日付】7/10\n【開始時間】14:0" =
      (.ok (some usageReply), []) :=
  (C1_amended ⟨2026, 10, 12, 9, 0⟩ [] "【タイトル】会議\n【日付】7/10\n【開始時間】14:0"
    rfl rfl rfl rfl).1 rfl

/-- C1 counterexample: month 13 and day 45 pass the regexes, so with all
three markers present the claim demands the usage-example reply with no
raise; the code instead lets the datetime constructor's error propagate. -/
theorem C1_counterexample :
    containsSub titleMarker ("【タイトル】会議\n【日付】13/45\n【開始時間】14:00").toList = true ∧
    containsSub dateMarker ("【タイトル】会議\n【日付】13/45\n【開始時間】14:00").toList = true ∧
    containsSub startTimeMarker ("【タイトル】会議\n【日付】13/45\n【開始時間】14:00").toList = true ∧
    handle_incoming_message ⟨2026, 10, 12, 9, 0⟩ []
        "【タイトル】会議\n【日付】13/45\n【開始時間】14:00" =
      (.error "month must be in 1..12", []) :=
  ⟨rfl, rfl, rfl, rfl⟩

/-- C2 (amended): for a create message whose extracted date/time fields are
in range — with the day valid for the extracted month in the current year,
not merely in 1–31 — extraction succeeds, the end timestamp is the start
timestamp plus exactly one hour (60 minutes in absolute time), and both ISO
strings carry the fixed +09:00 offset. -/
theorem C2_amended (now : DateTime) (msg : String) (tc : List Char) (m d h mi : Nat)
    (hy1 : 1 ≤ now.year) (hy2 : now.year ≤ 9999)
    (hT : findTagLine titleMarker msg.toList = some tc)
    (hD : findDate msg.toList = some (m, d))
    (hTi : findTime msg.toList = some (h, mi))
    (hm1 : 1 ≤ m) (hm2 : m ≤ 12) (hd1 : 1 ≤ d) (hd2 : d ≤ daysInMonth now.year m)
    (hh : h ≤ 23) (hmi : mi ≤ 59) :
    extract_event_info now msg =
      .ok (some (String.mk (pyStrip tc),
        DateTime.isoformat ⟨now.year, m, d, h, mi⟩,
        DateTime.isoformat (DateTime.addHour ⟨now.year, m, d, h, mi⟩),
        descriptionOf msg.toList)) ∧
    (DateTime.addHour ⟨now.year, m, d, h, mi⟩).toMin =
      (DateTime.mk now.year m d h mi).toMin + 60 ∧
    (∃ p, (DateTime.isoformat ⟨now.year, m, d, h, mi⟩).data = p ++ ("+09:00" : String).data) ∧
    (∃ p, (DateTime.isoformat (DateTime.addHour ⟨now.year, m, d, h, mi⟩)).data =
      p ++ ("+09:00" : String).data) := by
  refine ⟨?_, ?_, isoformat_offset _, isoformat_offset _⟩
  · unfold extract_event_info
    simp only [hT, hD, hTi,
      mkDatetime_nat_ok now.year m d h mi hy1 hy2 hm1 hm2 hd1 hd2 hh hmi]
  · exact addHour_toMin ⟨now.year, m, d, h, mi⟩ ⟨hm1, hm2, hd1, hd2, hh, hmi⟩

theorem C2_witness :
    extract_event_info ⟨2026, 10, 12, 9, 0⟩ "【タイトル】会議\n【日付】7/10\n【開始時間】14:30" =
      .ok (some (String.mk (pyStrip ['会', '議']),
        DateTime.isoformat ⟨2026, 7, 10, 14, 30⟩,
        DateTime.isoformat (DateTime.addHour ⟨2026, 7, 10, 14, 30⟩),
        descriptionOf ("【タイトル】会議\n【日付】7/10\n【開始時間】14:30").toList)) ∧
    (DateTime.addHour ⟨2026, 7, 10, 14, 30⟩).toMin = (DateTime.mk 2026 7 10 14 30).toMin + 60 ∧
    (∃ p, (DateTime.isoformat ⟨2026, 7, 10, 14, 30⟩).data = p ++ ("+09:00" : String).data) ∧
    (∃ p, (DateTime.isoformat (DateTime.addHour ⟨2026, 7, 10, 14, 30⟩)).data =
      p ++ ("+09:00" : String).data) :=
  C2_amended ⟨2026, 10, 12, 9, 0⟩ "【タイトル】会議\n【日付】7/10\n【開始時間】14:30"
    ['会', '議'] 7 10 14 30 (by decide) (by decide) rfl rfl rfl
    (by decide) (by decide) (by decide) (by decide) (by decide) (by decide)

/-- C2 counterexample: month 2 is in 1–12 and day 31 is in 1–31, yet the
extraction does not succeed — the datetime constructor rejects February 31
and the error propagates. -/
theorem C2_counterexample :
    findDate ("【タイトル】会議\n【日付】2/31\n【開始時間】14:00").toList = some (2, 31) ∧
    findTime ("【タイトル】会議\n【日付】2/31\n【開始時間】14:00").toList = some (14, 0) ∧
    extract_event_info ⟨2026, 10, 12, 9, 0⟩ "【タイトル】会議\n【日付】2/31\n【開始時間】14:00" =
      .error "day is out of range for month" :=
  ⟨rfl, rfl, rfl⟩

/-- C3: after the delete key parses, the resolution issues exactly one list
call over the one-hour window starting at the requested instant, deletes the
first listed entry whose summary equals the title exactly (reporting the
title), or reports not-found with no delete call. -/
theorem C3_delete_resolution (y : Nat) (rem : List CalEntry) (data : DeleteData)
    (t : String) (dt : DateTime)
    (hti : data.title = some t)
    (hdt : deleteParseDT y data = .ok dt) :
    (∀ ev, rem.find? (fun e => e.summary == some t) = some ev →
      delete_event_from_data y rem data =
        ("予定「" ++ t ++ "」を削除しました。",
         [GatewayCall.list dt.isoformat dt.addHour.isoformat, GatewayCall.del ev.id])) ∧
    (rem.find? (fun e => e.summary == some t) = none →
      delete_event_from_data y rem data =
        ("該当する予定が見つかりませんでした。",
         [GatewayCall.list dt.isoformat dt.addHour.isoformat])) ∧
    dt.addHour.toMin = dt.toMin + 60 := by
  refine ⟨?_, ?_, addHour_toMin dt (deleteParseDT_ok_valid y data dt hdt)⟩
  · intro ev hfind
    unfold delete_event_from_data
    rw [hdt]
    simp only [hti, hfind, optStr, Option.getD_some]
  · intro hfind
    unfold delete_event_from_data
    rw [hdt]
    simp only [hti, hfind]

theorem C3_witness :
    delete_event_from_data 2026 [⟨"id1", some "会議", none⟩]
        ⟨some "会議", some "7/10", some "14:00", none, none⟩ =
      ("予定「" ++ "会議" ++ "」を削除しました。",
       [GatewayCall.list (DateTime.isoformat ⟨2026, 7, 10, 14, 0⟩)
          (DateTime.isoformat (DateTime.addHour ⟨2026, 7, 10, 14, 0⟩)),
        GatewayCall.del "id1"]) :=
  (C3_delete_resolution 2026 [⟨"id1", some "会議", none⟩]
    ⟨some "会議", some "7/10", some "14:00", none, none⟩ "会議" ⟨2026, 7, 10, 14, 0⟩
    rfl rfl).1 ⟨"id1", some "会議", none⟩ rfl

theorem mapM_entryLine_ok (es : List CalEntry) (hs : ∀ e ∈ es, e.summary ≠ none) :
    es.mapM entryLine =
      .ok (es.map (fun e => slice11to16 (e.startDateTime.getD "") ++ " - " ++ e.summary.getD "")) := by
  induction es with
  | nil => rfl
  | cons e t ih =>
    obtain ⟨s, hsome⟩ : ∃ s, e.summary = some s := by
      cases hx : e.summary with
      | none => exact absurd hx (hs e (List.mem_cons_self e t))
      | some s => exact ⟨s, rfl⟩
    have hline : entryLine e = .ok (slice11to16 (e.startDateTime.getD "") ++ " - " ++ s) := by
      simp [entryLine, hsome]
    rw [List.mapM_cons, hline, ih (fun x hx => hs x (List.mem_cons_of_mem e hx))]
    simp only [List.map_cons, hsome, Option.getD_some]
    rfl

/-- C6: the digest is the header plus the fixed no-events line on an empty
sequence, and otherwise the header line, one line per entry in input order
(time substring of the start timestamp, then " - ", then the summary), and
the fixed trailing RSVP element. -/
theorem C6_format (header : String) (es : List CalEntry)
    (hs : ∀ e ∈ es, e.summary ≠ none) :
    format_events [] header = .ok (header ++ "\n" ++ noEventsLine) ∧
    (es ≠ [] →
      format_events es header =
        .ok (String.intercalate "\n"
          ((header :: es.map
            (fun e => slice11to16 (e.startDateTime.getD "") ++ " - " ++ e.summary.getD "")) ++
            [rsvpLine]))) := by
  constructor
  · rfl
  · intro hne
    unfold format_events
    rw [if_neg (by simpa using hne), mapM_entryLine_ok es hs]
    rfl

theorem C6_witness :
    format_events [⟨"a", some "会議", some "2026-07-10T14:00:00+09:00"⟩,
        ⟨"b", some "散歩", some "2026-07-11T09:30:00+09:00"⟩] "【今週の予定】" =
      .ok (String.intercalate "\n"
        (("【今週の予定】" :: ([⟨"a", some "会議", some "2026-07-10T14:00:00+09:00"⟩,
            ⟨"b", some "散歩", some "2026-07-11T09:30:00+09:00"⟩] : List CalEntry).map
          (fun e => slice11to16 (e.startDateTime.getD "") ++ " - " ++ e.summary.getD "")) ++
          [rsvpLine])) :=
  (C6_format "【今週の予定】"
    [⟨"a", some "会議", some "2026-07-10T14:00:00+09:00"⟩,
     ⟨"b", some "散歩", some "2026-07-11T09:30:00+09:00"⟩]
    (by simp)).2 (by simp)

/-- C10: an entry whose start record lacks the dateTime key does not make
the formatter fail — its line is rendered with an empty time prefix, the
slice of the defaulted empty string. -/
theorem C10_allday (e : CalEntry) (s header : String)
    (hs : e.summary = some s) (hd : e.startDateTime = none) :
    entryLine e = .ok (" - " ++ s) ∧
    format_events [e] header = .ok (String.intercalate "\n" [header, " - " ++ s, rsvpLine]) := by
  obtain ⟨i, su, st⟩ := e
  subst hs
  subst hd
  exact ⟨rfl, rfl⟩

theorem C10_witness :
    entryLine ⟨"b", some "散歩", none⟩ = .ok (" - " ++ "散歩") ∧
    format_events [⟨"b", some "散歩", none⟩] "【明日の予定】" =
      .ok (String.intercalate "\n" ["【明日の予定】", " - " ++ "散歩", rsvpLine]) :=
  C10_allday ⟨"b", some "散歩", none⟩ "散歩" "【明日の予定】" rfl rfl

theorem isPrefixOf_cons_neg_head (p c : Char) (ps l : List Char) (h : p ≠ c) :
    (p :: ps).isPrefixOf (c :: l) = false := by
  have hc : (p == c) = false := beq_eq_false_iff_ne.mpr h
  simp [List.isPrefixOf, hc]

theorem isPrefixOf_cons2_neg (p q c : Char) (ps l : List Char) (h : q ≠ c) :
    (p :: q :: ps).isPrefixOf (p :: c :: l) = false := by
  have hc : (q == c) = false := beq_eq_false_iff_ne.mpr h
  simp [List.isPrefixOf, hc]

theorem pyStrip_cons_ws (c : Char) (l : List Char) (h : isPyWs c = true) :
    pyStrip (c :: l) = pyStrip l := by
  simp [pyStrip, pyStripL, List.dropWhile_cons, h]

/-- C8: `message.replace` deletes the delete marker everywhere in the
message, not just a leading prefix: a title value written around an embedded
delete marker is stored with that marker deleted. -/
theorem C8_marker_removed_globally (a b : List Char)
    (ha : ∀ c ∈ a, c ≠ '【' ∧ c ≠ '\n' ∧ isPyWs c = false)
    (hb : ∀ c ∈ b, c ≠ '【' ∧ c ≠ '\n' ∧ isPyWs c = false) :
    (parse_delete_message (String.mk
      (deleteMarker ++ '\n' :: (titleMarker ++ (a ++ (deleteMarker ++ b)))))).title =
      some (String.mk (a ++ b)) := by
  have haC : ∀ c ∈ a, c ≠ '【' := fun c hc => (ha c hc).1
  have hbC : ∀ c ∈ b, c ≠ '【' := fun c hc => (hb c hc).1
  have habC : ∀ c ∈ a ++ b, c ≠ '【' := by
    intro c hc
    rcases List.mem_append.mp hc with h | h
    exacts [haC c h, hbC c h]
  have habW : ∀ c ∈ a ++ b, isPyWs c = false := by
    intro c hc
    rcases List.mem_append.mp hc with h | h
    exacts [(ha c h).2.2, (hb c h).2.2]
  have habN : ∀ c ∈ a ++ b, c ≠ '\n' := by
    intro c hc
    rcases List.mem_append.mp hc with h | h
    exacts [(ha c h).2.1, (hb c h).2.1]
  have htm5 : ∀ c ∈ (['タ', 'イ', 'ト', 'ル', '】'] : List Char), c ≠ '【' := by decide
  have hskip : ∀ c ∈ (['タ', 'イ', 'ト', 'ル', '】'] : List Char) ++ a, c ≠ '【' := by
    intro c hc
    rcases List.mem_append.mp hc with h | h
    exacts [htm5 c h, haC c h]
  have h1 : replaceAll '【' deleteMarker.tail
      (deleteMarker ++ '\n' :: (titleMarker ++ (a ++ (deleteMarker ++ b)))) =
      '\n' :: '【' :: 'タ' :: 'イ' :: 'ト' :: 'ル' :: '】' :: (a ++ b) := by
    show replaceAll '【' ['削', '除', '】']
        (('【' :: ['削', '除', '】']) ++
          ('\n' :: '【' :: 'タ' :: 'イ' :: 'ト' :: 'ル' :: '】' ::
            (a ++ (('【' :: ['削', '除', '】']) ++ b)))) =
      '\n' :: '【' :: 'タ' :: 'イ' :: 'ト' :: 'ル' :: '】' :: (a ++ b)
    rw [replaceAll_drop_pat]
    rw [replaceAll_cons_neg '【' '\n' ['削', '除', '】'] _
      (isPrefixOf_cons_neg_head _ _ _ _ (by decide))]
    rw [replaceAll_cons_neg '【' '【' ['削', '除', '】'] _
      (isPrefixOf_cons2_neg '【' '削' 'タ' ['除', '】'] _ (by decide))]
    rw [show ('タ' :: 'イ' :: 'ト' :: 'ル' :: '】' ::
        (a ++ (('【' :: ['削', '除', '】']) ++ b)) : List Char) =
        ((['タ', 'イ', 'ト', 'ル', '】'] : List Char) ++ a) ++
          (('【' :: ['削', '除', '】']) ++ b) from
      (List.append_assoc ['タ', 'イ', 'ト', 'ル', '】'] a _).symm]
    rw [replaceAll_append_skip '【' ['削', '除', '】'] _ _ hskip]
    rw [replaceAll_drop_pat]
    rw [replaceAll_id '【' ['削', '除', '】'] b hbC]
    rw [List.append_assoc]
    rfl
  have hmark : ∀ c ∈ (['【', 'タ', 'イ', 'ト', 'ル', '】'] : List Char),
      isPyWs c = false ∧ c ≠ '\n' := by decide
  have hNW : ∀ c ∈ '【' :: 'タ' :: 'イ' :: 'ト' :: 'ル' :: '】' :: (a ++ b),
      isPyWs c = false := by
    intro c hc
    rcases List.mem_append.mp
        (show c ∈ (['【', 'タ', 'イ', 'ト', 'ル', '】'] : List Char) ++ (a ++ b) from hc)
      with h | h
    · exact (hmark c h).1
    · exact habW c h
  have hNN : ∀ c ∈ '【' :: 'タ' :: 'イ' :: 'ト' :: 'ル' :: '】' :: (a ++ b), c ≠ '\n' := by
    intro c hc
    rcases List.mem_append.mp
        (show c ∈ (['【', 'タ', 'イ', 'ト', 'ル', '】'] : List Char) ++ (a ++ b) from hc)
      with h | h
    · exact (hmark c h).2
    · exact habN c h
  have h2 : pyStrip ('\n' :: '【' :: 'タ' :: 'イ' :: 'ト' :: 'ル' :: '】' :: (a ++ b)) =
      '【' :: 'タ' :: 'イ' :: 'ト' :: 'ル' :: '】' :: (a ++ b) := by
    rw [pyStrip_cons_ws _ _ (by decide)]
    exact pyStrip_all_nonws _ hNW
  have h3 : pySplitlines ('【' :: 'タ' :: 'イ' :: 'ト' :: 'ル' :: '】' :: (a ++ b)) =
      ['【' :: 'タ' :: 'イ' :: 'ト' :: 'ル' :: '】' :: (a ++ b)] :=
    pySplitlines_single _ (List.cons_ne_nil _ _) hNN
  have h4 : pyStrip ('【' :: 'タ' :: 'イ' :: 'ト' :: 'ル' :: '】' :: (a ++ b)) =
      '【' :: 'タ' :: 'イ' :: 'ト' :: 'ル' :: '】' :: (a ++ b) :=
    pyStrip_all_nonws _ hNW
  have h5 : titleMarker.isPrefixOf
      ('【' :: 'タ' :: 'イ' :: 'ト' :: 'ル' :: '】' :: (a ++ b)) = true := by
    rw [List.isPrefixOf_iff_prefix]
    exact ⟨a ++ b, rfl⟩
  have h6 : replaceAll '【' titleMarker.tail
      ('【' :: 'タ' :: 'イ' :: 'ト' :: 'ル' :: '】' :: (a ++ b)) = a ++ b :=
    (replaceAll_drop_pat '【' ['タ', 'イ', 'ト', 'ル', '】'] (a ++ b)).trans
      (replaceAll_id '【' ['タ', 'イ', 'ト', 'ル', '】'] (a ++ b) habC)
  unfold parse_delete_message
  dsimp only
  rw [show (String.mk (deleteMarker ++ '\n' ::
      (titleMarker ++ (a ++ (deleteMarker ++ b))))).toList =
      deleteMarker ++ '\n' :: (titleMarker ++ (a ++ (deleteMarker ++ b))) from rfl]
  rw [h1, h2, h3]
  simp only [List.map_cons, List.map_nil, h4]
  simp only [List.filter_cons, List.filter_nil, List.isEmpty_cons]
  norm_num
  simp [deleteLineStep, h5]
  rw [h6, pyStrip_all_nonws _ habW]

theorem C8_witness :
    (parse_delete_message (String.mk
      (deleteMarker ++ '\n' :: (titleMarker ++ (['会'] ++ (deleteMarker ++ ['議'])))))).title =
      some (String.mk (['会'] ++ ['議'])) :=
  C8_marker_removed_globally ['会'] ['議'] (by decide) (by decide)

end EventBot
